import Mathlib

/-!
Verification of the ATK audio daemon's queue state machine, player buffer
arithmetic and IPC ordering, shallowly embedded from `src/atk/daemon.py` and
`src/atk/player.py`.

Conventions of the embedding:
* Python lists become `List`, machine floats with exact decimal content become
  `ℚ`, indices become `ℕ`.
* `random.shuffle` and `random.randint` outcomes are passed in as explicit
  arguments; the step relation constrains them exactly as the library
  guarantees (a shuffled list is a permutation of its input, `randint(a, b)`
  lies in `[a, b]`, which `pyInsert` renders harmless by clamping exactly as
  Python's `list.insert` does).
* `Player.load` can succeed or fail at runtime depending on the filesystem;
  `_play_current` is therefore a relation (`PlayCur`) with one constructor per
  control path of the Python code, including the path where the decoder or
  the audio device raises an exception outside the handler's
  `except (FileNotFoundError, ValueError)` clause — e.g.
  `miniaudio.DecodeError` — which escapes `_play_current` and aborts the rest
  of the calling command handler.
-/

namespace Atk

/-! ## Supported formats (`player.py`: `SUPPORTED_EXTENSIONS`, `is_supported`) -/

def SUPPORTED_EXTENSIONS : List String :=
  [".mp3", ".ogg", ".flac", ".wav", ".opus", ".m4a", ".aac"]

/-- Split a character list at every `/` (the posix separator `pathlib` uses). -/
def splitOnSlash : List Char → List (List Char)
  | [] => [[]]
  | c :: cs =>
    if c = '/' then [] :: splitOnSlash cs
    else
      match splitOnSlash cs with
      | [] => [[c]]
      | r :: rs => (c :: r) :: rs

/-- The final path component, as `pathlib.PurePath.name`: the last non-empty
part between slashes (trailing slashes stripped). -/
def pathNameChars (uri : String) : List Char :=
  ((splitOnSlash uri.toList).filter (fun c => c ≠ [])).getLastD []

/-- `pathlib.PurePath.suffix`: from the last dot of the name, provided that
dot is neither the first nor the last character. -/
def pathSuffixChars (uri : String) : List Char :=
  let name := pathNameChars uri
  match ((List.range name.length).filter (fun i => name.getD i ' ' = '.')).getLast? with
  | some i => if 0 < i ∧ i < name.length - 1 then name.drop i else []
  | none => []

/-- `is_supported(uri)`: `Path(uri).suffix.lower() in SUPPORTED_EXTENSIONS`. -/
def isSupported (uri : String) : Bool :=
  SUPPORTED_EXTENSIONS.contains (String.mk ((pathSuffixChars uri).map Char.toLower))

/-! ## Daemon queue state (`daemon.py`: `Daemon.__init__`) -/

inductive RepeatMode where
  | rnone | rqueue | rtrack
deriving DecidableEq, Repr

inductive PlayState where
  | stopped | playing | paused
deriving DecidableEq, Repr

structure DaemonState where
  queue : List String
  queuePos : Nat
  shuffle : Bool
  shuffleOrder : List Nat
  repeatMode : RepeatMode
  playState : PlayState
deriving DecidableEq, Repr

/-- The state set up by `Daemon.__init__`. -/
def initState : DaemonState :=
  { queue := [], queuePos := 0, shuffle := false, shuffleOrder := [],
    repeatMode := .rnone, playState := .stopped }

/-- Python `list.insert(i, x)`: clamps `i` to the length (negative indices do
not occur in this code base). -/
def pyInsert (l : List α) (i : Nat) (x : α) : List α :=
  List.insertIdx (min i l.length) x l

/-! ## Queue helpers (`daemon.py`) -/

/-- `Daemon._shuffle_insert(track_idx)`.  `r` is the value returned by
`random.randint(cur + 1, len(shuffle_order))`. -/
def shuffleInsert (trackIdx r : Nat) (s : DaemonState) : DaemonState :=
  if s.shuffleOrder ≠ [] then
    if s.queuePos ∈ s.shuffleOrder then
      { s with shuffleOrder := pyInsert s.shuffleOrder r trackIdx }
    else
      { s with shuffleOrder := pyInsert s.shuffleOrder s.shuffleOrder.length trackIdx }
  else
    { s with shuffleOrder := pyInsert s.shuffleOrder 0 trackIdx }

/-- `Daemon._cmd_add` state change (argument validation raises before any
mutation, so failed calls leave the state alone and are not modelled). -/
def cmdAdd (uri : String) (r : Nat) (s : DaemonState) : DaemonState :=
  let s1 := { s with queue := s.queue ++ [uri] }
  if s1.shuffle then shuffleInsert (s1.queue.length - 1) r s1 else s1

/-- `Daemon._cmd_play` with a `file` argument, up to the `_play_current`
call: append, point `queue_pos` at the new last element, shuffle-insert. -/
def cmdPlayFilePre (file : String) (r : Nat) (s : DaemonState) : DaemonState :=
  let s1 := { s with queue := s.queue ++ [file], queuePos := s.queue.length }
  if s1.shuffle then shuffleInsert (s1.queue.length - 1) r s1 else s1

/-- `Daemon._advance_linear`. -/
def advanceLinear (s : DaemonState) : DaemonState × Bool :=
  let nxt := s.queuePos + 1
  if s.queue.length ≤ nxt then
    if s.repeatMode = .rqueue then ({ s with queuePos := 0 }, true)
    else (s, false)
  else ({ s with queuePos := nxt }, true)

/-- `Daemon._advance`.  `newOrder` is the outcome of the `random.shuffle`
performed when the shuffle order is exhausted under `repeat == "queue"`. -/
def advance (newOrder : List Nat) (s : DaemonState) : DaemonState × Bool :=
  if s.queue = [] then (s, false)
  else if s.shuffle then
    match s.shuffleOrder.indexOf? s.queuePos with
    | none => advanceLinear s
    | some idx =>
      let nxt := idx + 1
      if s.shuffleOrder.length ≤ nxt then
        if s.repeatMode = .rqueue then
          ({ s with shuffleOrder := newOrder, queuePos := newOrder.getD 0 0 }, true)
        else (s, false)
      else ({ s with queuePos := s.shuffleOrder.getD nxt 0 }, true)
  else advanceLinear s

/-- `Daemon._go_prev_linear`. -/
def goPrevLinear (s : DaemonState) : DaemonState × Bool :=
  if s.queuePos = 0 then
    if s.repeatMode = .rqueue then ({ s with queuePos := s.queue.length - 1 }, true)
    else (s, false)
  else ({ s with queuePos := s.queuePos - 1 }, true)

/-- `Daemon._go_previous` (no reshuffle happens on the backward path). -/
def goPrevious (s : DaemonState) : DaemonState × Bool :=
  if s.queue = [] then (s, false)
  else if s.shuffle then
    match s.shuffleOrder.indexOf? s.queuePos with
    | none => goPrevLinear s
    | some idx =>
      if idx = 0 then
        if s.repeatMode = .rqueue then
          ({ s with queuePos := s.shuffleOrder.getD (s.shuffleOrder.length - 1) 0 }, true)
        else (s, false)
      else ({ s with queuePos := s.shuffleOrder.getD (idx - 1) 0 }, true)
  else goPrevLinear s

/-- `self.queue.pop(idx)` inside `_cmd_remove`. -/
def removePop (idx : Nat) (s : DaemonState) : DaemonState :=
  { s with queue := s.queue.eraseIdx idx }

/-- The shuffle-order fixup at the end of `_cmd_remove`:
`shuffle_order.remove(idx)` guarded by `try`/`except ValueError: pass`
(which is exactly `List.erase`), then renumber indices above `idx`. -/
def removeFixOrder (idx : Nat) (s : DaemonState) : DaemonState :=
  if s.shuffle ∧ s.shuffleOrder ≠ [] then
    { s with shuffleOrder :=
        (s.shuffleOrder.erase idx).map (fun i => if i < idx then i else i - 1) }
  else s

/-- `Daemon._cmd_move` state change (both indices already validated). -/
def cmdMove (i j : Nat) (s : DaemonState) : DaemonState :=
  let track := s.queue.getD i ""
  let popped := s.queue.eraseIdx i
  let q := pyInsert popped j track
  let pos :=
    if i = s.queuePos then j
    else if i < s.queuePos ∧ s.queuePos ≤ j then s.queuePos - 1
    else if j ≤ s.queuePos ∧ s.queuePos < i then s.queuePos + 1
    else s.queuePos
  { s with queue := q, queuePos := pos }

/-- `Daemon._cmd_clear`: stop playback, clear queue, position and shuffle
order (the shuffle *flag* is kept). -/
def cmdClear (s : DaemonState) : DaemonState :=
  { s with playState := .stopped, queue := [], queuePos := 0, shuffleOrder := [] }

/-- `Daemon._cmd_shuffle` with `enabled=True`.  `order` is the output of
`random.shuffle(list(range(len(queue))))`; the current position is then moved
to the front when present. -/
def cmdShuffleOn (order : List Nat) (s : DaemonState) : DaemonState :=
  if s.queuePos ∈ order then
    { s with shuffle := true, shuffleOrder := pyInsert (order.erase s.queuePos) 0 s.queuePos }
  else
    { s with shuffle := true, shuffleOrder := order }

/-- `Daemon._cmd_shuffle` with `enabled=False`. -/
def cmdShuffleOff (s : DaemonState) : DaemonState :=
  { s with shuffle := false, shuffleOrder := [] }

/-- A playlist file as written by `_cmd_save` with `format == "json"`:
`{"name": name, "tracks": queue}`. -/
structure Playlist where
  name : String
  tracks : List String
deriving DecidableEq, Repr

/-- `Daemon._cmd_save` with `format == "json"` writes this value. -/
def savePlaylistJson (name : String) (s : DaemonState) : Playlist :=
  { name := name, tracks := s.queue }

/-- `Daemon._cmd_load` state change for an already-parsed track list: clear,
then append each supported track, then regenerate the shuffle order when the
shuffle flag is on (`order` is the `random.shuffle` outcome). -/
def cmdLoad (tracks : List String) (order : List Nat) (s : DaemonState) : DaemonState :=
  let s1 := cmdClear s
  let s2 := { s1 with queue := tracks.filter (fun t => isSupported t) }
  if s2.shuffle then { s2 with shuffleOrder := order } else s2

/-! ## `Daemon._play_current` as a relation

`player.load` succeeds or raises depending on the filesystem, so the call is
modelled relationally, one constructor per control path.  The `Bool` index
records whether the call *returned* (`true`) or an exception *escaped* it
(`false`): the handler's `except` clause catches only
`(FileNotFoundError, ValueError)`, while `miniaudio.decode_file` raises
`miniaudio.DecodeError` (a `MiniaudioError`, not a `ValueError`) on a corrupt
file and `miniaudio.PlaybackDevice` can raise `MiniaudioError` too, so those
escape `_play_current` and abort the rest of the calling handler.  The paths:
* the guard `if not self.queue or self.queue_pos >= len(self.queue): return`;
* a successful `load`/`play` setting `state = "playing"`;
* `load`/`play` raising outside `(FileNotFoundError, ValueError)`: nothing in
  `_play_current` itself has mutated yet, the exception propagates;
* a caught `load` failure whose `_advance()` returns `False` (no mutation);
* a caught `load` failure whose `_advance()` succeeds, followed by the
  recursive `_play_current()` on the advanced state (whose own escape flag
  propagates, since the recursive call sits inside the `except` block). -/

inductive PlayCur : DaemonState → DaemonState → Bool → Prop where
  | emptyGuard (s : DaemonState) :
      s.queue = [] ∨ s.queue.length ≤ s.queuePos → PlayCur s s true
  | loadOk (s : DaemonState) :
      s.queuePos < s.queue.length → PlayCur s { s with playState := .playing } true
  | loadRaise (s : DaemonState) :
      s.queuePos < s.queue.length → PlayCur s s false
  | loadFailEnd (s : DaemonState) (no : List Nat) :
      s.queuePos < s.queue.length → (advance no s).2 = false → PlayCur s s true
  | loadFailNext (s s' : DaemonState) (no : List Nat) (b : Bool) :
      s.queuePos < s.queue.length → no.Perm s.shuffleOrder →
      (advance no s).2 = true → PlayCur (advance no s).1 s' b → PlayCur s s'  b

/-! ## The command step relation

One constructor per state-changing control path of a command handler.
Handlers validate their arguments before any mutation, so a failing command
leaves the state unchanged and identity steps are omitted (reachability is
reflexive anyway).  Random outcomes appear as constructor arguments with
exactly the constraint the `random` library guarantees.

Where a handler ends in `await self._play_current()` (play, next, prev, jump,
track-end), an escaping exception only changes the response, not the state,
so those constructors accept either escape flag.  `_cmd_remove` is different:
its shuffle-order fixup runs *after* the `_play_current()` call, so an
escaping exception skips it — `removePlay` (returned, fixup applied) and
`removePlayAbort` (escaped, fixup skipped) model the two paths. -/

inductive Step : DaemonState → DaemonState → Prop where
  /-- `_cmd_play` with a supported `file` argument (`_play_current` is the
  handler's last mutation, so an escaping exception changes nothing more). -/
  | playFile (s s' : DaemonState) (file : String) (r : Nat) (b : Bool) :
      isSupported file = true → PlayCur (cmdPlayFilePre file r s) s' b → Step s s'
  /-- `_cmd_play` with no file while paused: unpause. -/
  | playUnpause (s : DaemonState) :
      s.playState = .paused → Step s { s with playState := .playing }
  /-- `_cmd_play` with no file while stopped with a non-empty queue. -/
  | playStopped (s s' : DaemonState) (b : Bool) :
      s.playState = .stopped → s.queue ≠ [] → PlayCur s s' b → Step s s'
  /-- `_cmd_pause` while playing. -/
  | pause (s : DaemonState) :
      s.playState = .playing → Step s { s with playState := .paused }
  /-- `_cmd_stop`. -/
  | stop (s : DaemonState) : Step s { s with playState := .stopped }
  /-- `_cmd_next` when `_advance()` succeeds (the end-of-queue branch does not
  mutate the state). -/
  | next (s s' : DaemonState) (no : List Nat) (b : Bool) :
      no.Perm s.shuffleOrder → (advance no s).2 = true →
      PlayCur (advance no s).1 s' b → Step s s'
  /-- `_cmd_prev` when `_go_previous()` succeeds. -/
  | prev (s s' : DaemonState) (b : Bool) :
      (goPrevious s).2 = true → PlayCur (goPrevious s).1 s' b → Step s s'
  /-- `_cmd_add` with a supported URI. -/
  | add (s : DaemonState) (uri : String) (r : Nat) :
      isSupported uri = true → Step s (cmdAdd uri r s)
  /-- `_cmd_remove`, branch `idx < queue_pos`. -/
  | removeLt (s : DaemonState) (idx : Nat) :
      idx < s.queue.length → idx < s.queuePos →
      Step s (removeFixOrder idx { removePop idx s with queuePos := s.queuePos - 1 })
  /-- `_cmd_remove` of the playing track with a successor available and
  `_play_current` *returning*: the shuffle fixup runs afterwards. -/
  | removePlay (s s2 : DaemonState) (idx : Nat) :
      idx < s.queue.length → idx = s.queuePos → s.playState = .playing →
      s.queuePos < (removePop idx s).queue.length →
      PlayCur (removePop idx s) s2 true → Step s (removeFixOrder idx s2)
  /-- `_cmd_remove` of the playing track when an exception escapes
  `_play_current` (e.g. `miniaudio.DecodeError` on a corrupt file): the
  handler aborts, so the shuffle-order fixup is *skipped*. -/
  | removePlayAbort (s s2 : DaemonState) (idx : Nat) :
      idx < s.queue.length → idx = s.queuePos → s.playState = .playing →
      s.queuePos < (removePop idx s).queue.length →
      PlayCur (removePop idx s) s2 false → Step s s2
  /-- `_cmd_remove` of the playing track at the end of the queue: stop. -/
  | removePlayEnd (s : DaemonState) (idx : Nat) :
      idx < s.queue.length → idx = s.queuePos → s.playState = .playing →
      ¬ s.queuePos < (removePop idx s).queue.length →
      Step s (removeFixOrder idx { removePop idx s with playState := .stopped })
  /-- `_cmd_remove`, remaining branch (index at or above a non-playing
  position): only the pop and the shuffle fixup happen. -/
  | removeOther (s : DaemonState) (idx : Nat) :
      idx < s.queue.length → ¬ idx < s.queuePos →
      ¬ (idx = s.queuePos ∧ s.playState = .playing) →
      Step s (removeFixOrder idx (removePop idx s))
  /-- `_cmd_move` with valid indices. -/
  | move (s : DaemonState) (i j : Nat) :
      i < s.queue.length → j < s.queue.length → Step s (cmdMove i j s)
  /-- `_cmd_clear`. -/
  | clear (s : DaemonState) : Step s (cmdClear s)
  /-- `_cmd_jump` with a valid index: set the position, then `_play_current`. -/
  | jump (s s' : DaemonState) (idx : Nat) (b : Bool) :
      idx < s.queue.length → PlayCur { s with queuePos := idx } s' b → Step s s'
  /-- `_cmd_shuffle enabled=True`; `random.shuffle` yields a permutation of
  `range(len(queue))`. -/
  | shuffleOn (s : DaemonState) (order : List Nat) :
      order.Perm (List.range s.queue.length) → Step s (cmdShuffleOn order s)
  /-- `_cmd_shuffle enabled=False`. -/
  | shuffleOff (s : DaemonState) : Step s (cmdShuffleOff s)
  /-- `_cmd_repeat` with a valid mode. -/
  | setRepeat (s : DaemonState) (m : RepeatMode) : Step s { s with repeatMode := m }
  /-- `_cmd_load` of a parsed playlist. -/
  | load (s : DaemonState) (tracks : List String) (order : List Nat) :
      order.Perm (List.range (tracks.filter (fun t => isSupported t)).length) →
      Step s (cmdLoad tracks order s)
  /-- `_handle_track_end` with `repeat == "track"`: replay the current track. -/
  | trackEndRepeat (s s' : DaemonState) (b : Bool) :
      s.repeatMode = .rtrack → PlayCur s s' b → Step s s'
  /-- `_handle_track_end` when `_advance()` succeeds. -/
  | trackEndAdvance (s s' : DaemonState) (no : List Nat) (b : Bool) :
      s.repeatMode ≠ .rtrack → no.Perm s.shuffleOrder → (advance no s).2 = true →
      PlayCur (advance no s).1 s' b → Step s s'
  /-- `_handle_track_end` at the end of the queue: stop. -/
  | trackEndStop (s : DaemonState) (no : List Nat) :
      s.repeatMode ≠ .rtrack → (advance no s).2 = false →
      Step s { s with playState := .stopped }

/-- States reachable from the daemon's initial state by any command sequence. -/
def Reachable (s : DaemonState) : Prop :=
  Relation.ReflTransGen Step initState s

/-! ## `next`/`prev` with their responses (for the boundary-behaviour claim)

`_cmd_next` returns `{"queue_position": ...}` when `_advance()` succeeds and
`{"error": "End of queue"}` otherwise; `_cmd_prev` mirrors this with
`"Start of queue"`.  `Resp.raised` stands for the `ok = false` failure
response that `_dispatch` builds when an exception escapes the handler (its
message is the exception's text). -/

inductive Resp where
  | qpos (p : Nat)
  | errMsg (m : String)
  | raised
deriving DecidableEq, Repr

inductive CmdNext (no : List Nat) : DaemonState → DaemonState → Resp → Prop where
  | adv (s s' : DaemonState) :
      no.Perm s.shuffleOrder → (advance no s).2 = true →
      PlayCur (advance no s).1 s' true → CmdNext no s s' (.qpos s'.queuePos)
  | advRaise (s s' : DaemonState) :
      no.Perm s.shuffleOrder → (advance no s).2 = true →
      PlayCur (advance no s).1 s' false → CmdNext no s s' .raised
  | atEnd (s : DaemonState) :
      (advance no s).2 = false → CmdNext no s s (.errMsg "End of queue")

inductive CmdPrev : DaemonState → DaemonState → Resp → Prop where
  | adv (s s' : DaemonState) :
      (goPrevious s).2 = true → PlayCur (goPrevious s).1 s' true →
      CmdPrev s s' (.qpos s'.queuePos)
  | advRaise (s s' : DaemonState) :
      (goPrevious s).2 = true → PlayCur (goPrevious s).1 s' false →
      CmdPrev s s' .raised
  | atStart (s : DaemonState) :
      (goPrevious s).2 = false → CmdPrev s s (.errMsg "Start of queue")

/-! ## Player buffer model (`player.py`)

The decoded buffer holds `total_frames` frames of interleaved float32 at
`SAMPLE_RATE = 44100`, `CHANNELS = 2`; only the frame arithmetic is modelled
(sample values never feed back into cursor movement). -/

def SAMPLE_RATE : Nat := 44100

def CHANNELS : Nat := 2

structure PlayerBuf where
  totalFrames : Nat
  position : Nat
deriving DecidableEq, Repr

/-- Python `int()` on a nonnegative-or-negative rational: truncation toward
zero. -/
def pyInt (q : ℚ) : ℤ :=
  if q < 0 then -⌊-q⌋ else ⌊q⌋

/-- The source-read sizing in `Player._audio_generator`:
`int(required_frames * self._rate) if self._rate != 1.0 else required_frames`. -/
def sourceFramesFor (requiredFrames : Nat) (rate : ℚ) : Nat :=
  if rate ≠ 1 then (pyInt ((requiredFrames : ℚ) * rate)).toNat else requiredFrames

/-- Sample count of the chunk returned by `Player._read_chunk(frames)`:
`samples[position * CHANNELS : min((position + frames) * CHANNELS, len(samples))]`
where `len(samples) = total_frames * CHANNELS`. -/
def readChunkSamples (frames : Nat) (p : PlayerBuf) : Nat :=
  min ((p.position + frames) * CHANNELS) (p.totalFrames * CHANNELS) - p.position * CHANNELS

/-- Cursor update of `Player._read_chunk`:
`self._position = min(self._position + frames, self._total_frames)`. -/
def readChunkPos (frames : Nat) (p : PlayerBuf) : PlayerBuf :=
  { p with position := min (p.position + frames) p.totalFrames }

/-- `Player.seek(position)`:
`self._position = max(0, min(int(position * SAMPLE_RATE), self._total_frames - 1))`
(computed in `ℤ`, as Python has no unsigned wraparound here). -/
def seekF (seconds : ℚ) (p : PlayerBuf) : PlayerBuf :=
  { p with position :=
      (max 0 (min (pyInt (seconds * (SAMPLE_RATE : ℚ))) ((p.totalFrames : ℤ) - 1))).toNat }

/-- `Player.get_position`: `self._position / SAMPLE_RATE`. -/
def getPosition (p : PlayerBuf) : ℚ :=
  (p.position : ℚ) / (SAMPLE_RATE : ℚ)

/-- `Player.get_duration`: `self._total_frames / SAMPLE_RATE`. -/
def getDuration (p : PlayerBuf) : ℚ :=
  (p.totalFrames : ℚ) / (SAMPLE_RATE : ℚ)

/-- `Daemon._cmd_seek` on an already-resolved numeric target `t` (absolute, or
current ± offset): clamp below at 0, seek the player, and report the clamped
*request* — not the engine cursor — as `{"position": pos}`. -/
def cmdSeekResolved (t : ℚ) (p : PlayerBuf) : PlayerBuf × ℚ :=
  let pos := max 0 t
  (seekF pos p, pos)

/-! ## Response-pipe ordering model (`daemon.py`: `_read_loop`, `_emit`)

`_emit` appends an event line to the outgoing FIFO queue *while the handler
runs*; `_read_loop` appends the response line only after the handler has
returned.  Lines are modelled as tagged strings. -/

def eventLine (e : String) : String := "event:" ++ e

def respLine (cmd : String) : String := "resp:" ++ cmd

/-- One `_read_loop` iteration for `_cmd_add`: the handler mutates the state
and emits `queue_updated`, then the read loop enqueues the response. -/
def dispatchAdd (uri : String) (r : Nat) (outq : List String) (s : DaemonState) :
    DaemonState × List String :=
  (cmdAdd uri r s, (outq ++ [eventLine "queue_updated"]) ++ [respLine "add"])

/-- One `_read_loop` iteration for `_cmd_clear`: the handler emits
`queue_updated`, then the read loop enqueues the response. -/
def dispatchClear (outq : List String) (s : DaemonState) :
    DaemonState × List String :=
  (cmdClear s, (outq ++ [eventLine "queue_updated"]) ++ [respLine "clear"])

/-- One `_read_loop` iteration for `_cmd_move` with valid indices. -/
def dispatchMove (i j : Nat) (outq : List String) (s : DaemonState) :
    DaemonState × List String :=
  (cmdMove i j s, (outq ++ [eventLine "queue_updated"]) ++ [respLine "move"])

/-- The two state facts that survive *every* control path, including the
handler aborts caused by exceptions escaping `_play_current`: the shuffle
order is empty whenever the shuffle flag is off (every write to it is either
a clear or guarded by the flag), and every queued track passed the
`is_supported` check when it was appended (`add`/`play` validate, `load`
filters).  Stronger facts — `queue_pos < len(queue)`, or shuffle_order being
a permutation of the queue's index set — are *not* invariants of the program:
see the theorems for C2 and C3. -/
def Inv (s : DaemonState) : Prop :=
  (s.shuffle = false → s.shuffleOrder = []) ∧
  (∀ t ∈ s.queue, isSupported t = true)

/-! ## Concrete states used in the boundary and counterexample theorems -/

/-- Reached by `add a.mp3; add b.mp3; jump 1; remove 1`: the currently playing
last track is removed, `_cmd_remove` stops playback but leaves
`queue_pos == len(queue)`. -/
def c2FailState : DaemonState :=
  { queue := ["a.mp3"], queuePos := 1, shuffle := false, shuffleOrder := [],
    repeatMode := .rnone, playState := .stopped }

/-- One supported track, shuffle on, the shuffle order holding exactly its
index: `shuffle_order ≠ ∅ ⇔ shuffle` holds here. -/
def c4StartState : DaemonState :=
  { queue := ["a.mp3"], queuePos := 0, shuffle := true, shuffleOrder := [0],
    repeatMode := .rnone, playState := .stopped }

/-- `c4StartState` after `remove 0`: shuffle still on, order empty. -/
def c4EndState : DaemonState :=
  { queue := [], queuePos := 0, shuffle := true, shuffleOrder := [],
    repeatMode := .rnone, playState := .stopped }

/-- Reached by `add a.mp3; add b.mp3; jump 1; shuffle on` (with the random
permutation `[1, 0]`): `queue_pos` is the *last queue position* but the
*first* entry of the shuffle order. -/
def c5ShuffleState : DaemonState :=
  { queue := ["a.mp3", "b.mp3"], queuePos := 1, shuffle := true, shuffleOrder := [1, 0],
    repeatMode := .rnone, playState := .playing }

/-- A one-track stopped queue with shuffle off, used to exercise the
`next`/`prev` boundary errors. -/
def c5LinearState : DaemonState :=
  { queue := ["a.mp3"], queuePos := 0, shuffle := false, shuffleOrder := [],
    repeatMode := .rnone, playState := .stopped }

/-- `initState` after `add a.mp3`. -/
def c2StateA : DaemonState :=
  { queue := ["a.mp3"], queuePos := 0, shuffle := false, shuffleOrder := [],
    repeatMode := .rnone, playState := .stopped }

/-- `c2StateA` after `add b.mp3`. -/
def c2StateAB : DaemonState :=
  { queue := ["a.mp3", "b.mp3"], queuePos := 0, shuffle := false, shuffleOrder := [],
    repeatMode := .rnone, playState := .stopped }

/-- `c2StateAB` after `jump 1`. -/
def c2StateABJ : DaemonState :=
  { queue := ["a.mp3", "b.mp3"], queuePos := 1, shuffle := false, shuffleOrder := [],
    repeatMode := .rnone, playState := .playing }

/-- A three-track queue playing its middle track. -/
def c6WitnessState : DaemonState :=
  { queue := ["a.mp3", "b.mp3", "c.mp3"], queuePos := 1, shuffle := false,
    shuffleOrder := [], repeatMode := .rnone, playState := .playing }

/-- `initState` after `add ok.mp3`: one loadable track. -/
def c3StateA : DaemonState :=
  { queue := ["ok.mp3"], queuePos := 0, shuffle := false, shuffleOrder := [],
    repeatMode := .rnone, playState := .stopped }

/-- `c3StateA` after `add bad.mp3` — a file whose extension passes
`is_supported` but whose payload makes `miniaudio.decode_file` raise
`DecodeError`. -/
def c3StateB : DaemonState :=
  { queue := ["ok.mp3", "bad.mp3"], queuePos := 0, shuffle := false, shuffleOrder := [],
    repeatMode := .rnone, playState := .stopped }

/-- `c3StateB` after `shuffle on` with the random permutation `[0, 1]`. -/
def c3StateC : DaemonState :=
  { queue := ["ok.mp3", "bad.mp3"], queuePos := 0, shuffle := true, shuffleOrder := [0, 1],
    repeatMode := .rnone, playState := .stopped }

/-- `c3StateC` after `play` (loading `ok.mp3` succeeds). -/
def c3StateD : DaemonState :=
  { queue := ["ok.mp3", "bad.mp3"], queuePos := 0, shuffle := true, shuffleOrder := [0, 1],
    repeatMode := .rnone, playState := .playing }

/-- `c3StateD` after `remove 0`: the pop leaves `bad.mp3`, `_play_current`
raises `DecodeError` out of `_cmd_remove`, and the shuffle-order fixup is
skipped — `shuffle_order` is still `[0, 1]` while `len(queue) = 1`. -/
def c3FailState : DaemonState :=
  { queue := ["bad.mp3"], queuePos := 0, shuffle := true, shuffleOrder := [0, 1],
    repeatMode := .rnone, playState := .playing }

/-! ## List helper lemmas -/

theorem getD_mem_of_lt (l : List Nat) (n d : Nat) (h : n < l.length) :
    l.getD n d ∈ l := by
  rw [List.getD_eq_getElem?_getD, List.getElem?_eq_getElem h]
  exact List.getElem_mem h

theorem pyInsert_perm (l : List α) (i : Nat) (x : α) :
    (pyInsert l i x).Perm (x :: l) :=
  List.perm_insertIdx x l (min_le_right i l.length)

/-! ## Facts about `advance`, `goPrevious` and `PlayCur` -/

theorem advanceLinear_facts (s : DaemonState) (hq : s.queue ≠ []) :
    (advanceLinear s).1.queue = s.queue ∧
    (advanceLinear s).1.shuffle = s.shuffle ∧
    (advanceLinear s).1.repeatMode = s.repeatMode ∧
    (advanceLinear s).1.playState = s.playState ∧
    (advanceLinear s).1.shuffleOrder = s.shuffleOrder ∧
    ((advanceLinear s).1.queuePos = s.queuePos ∨
      (advanceLinear s).1.queuePos < s.queue.length) := by
  have hlen : 0 < s.queue.length := List.length_pos.mpr hq
  dsimp only [advanceLinear]
  split_ifs with h1 h2
  · exact ⟨rfl, rfl, rfl, rfl, rfl, Or.inr hlen⟩
  · exact ⟨rfl, rfl, rfl, rfl, rfl, Or.inl rfl⟩
  · refine ⟨rfl, rfl, rfl, rfl, rfl, Or.inr ?_⟩
    show s.queuePos + 1 < s.queue.length
    omega

theorem findIdx?_some_lt_aux {p : Nat → Bool} :
    ∀ (l : List Nat) (i0 i : Nat), List.findIdx? p l i0 = some i → i < i0 + l.length := by
  intro l
  induction l with
  | nil => intro i0 i h; simp [List.findIdx?] at h
  | cons x xs ih =>
    intro i0 i h
    rw [List.findIdx?_cons] at h
    by_cases hx : p x = true
    · rw [if_pos hx] at h
      have := Option.some.inj h
      simp only [List.length_cons]
      omega
    · rw [if_neg hx] at h
      have := ih (i0 + 1) i h
      simp only [List.length_cons]
      omega

theorem indexOf?_some_lt {a i : Nat} {l : List Nat}
    (h : List.indexOf? a l = some i) : i < l.length := by
  have := findIdx?_some_lt_aux (p := fun x => x == a) l 0 i h
  omega

theorem indexOf?_some_mem {a i : Nat} {l : List Nat}
    (h : List.indexOf? a l = some i) : a ∈ l := by
  by_contra hnm
  have hnone : List.indexOf? a l = none := by
    rw [List.indexOf?_eq_none_iff]
    intro x hx
    simp only [beq_iff_eq]
    intro hxa
    exact hnm (hxa ▸ hx)
  rw [hnone] at h
  exact Option.noConfusion h

theorem advance_facts (no : List Nat) (s : DaemonState) (hno : no.Perm s.shuffleOrder) :
    (advance no s).1.queue = s.queue ∧
    (advance no s).1.shuffle = s.shuffle ∧
    (advance no s).1.repeatMode = s.repeatMode ∧
    (advance no s).1.playState = s.playState ∧
    (advance no s).1.shuffleOrder.Perm s.shuffleOrder ∧
    ((advance no s).1.queuePos = s.queuePos ∨
      (advance no s).1.queuePos < s.queue.length ∨
      (advance no s).1.queuePos ∈ s.shuffleOrder) := by
  have hlinear : s.queue ≠ [] →
      (advanceLinear s).1.queue = s.queue ∧
      (advanceLinear s).1.shuffle = s.shuffle ∧
      (advanceLinear s).1.repeatMode = s.repeatMode ∧
      (advanceLinear s).1.playState = s.playState ∧
      (advanceLinear s).1.shuffleOrder.Perm s.shuffleOrder ∧
      ((advanceLinear s).1.queuePos = s.queuePos ∨
        (advanceLinear s).1.queuePos < s.queue.length ∨
        (advanceLinear s).1.queuePos ∈ s.shuffleOrder) := by
    intro hq
    obtain ⟨h1, h2, h3, h4, h5, h6⟩ := advanceLinear_facts s hq
    exact ⟨h1, h2, h3, h4, h5 ▸ List.Perm.refl _,
      h6.elim Or.inl (fun h => Or.inr (Or.inl h))⟩
  unfold advance
  split
  · exact ⟨rfl, rfl, rfl, rfl, List.Perm.refl _, Or.inl rfl⟩
  · rename_i hq
    split
    · rename_i hsh
      cases hidx : s.shuffleOrder.indexOf? s.queuePos with
      | none => exact hlinear hq
      | some idx =>
        simp only
        split_ifs with hend hrq
        · refine ⟨rfl, rfl, rfl, rfl, hno, Or.inr (Or.inr ?_)⟩
          have hmem : s.queuePos ∈ s.shuffleOrder := indexOf?_some_mem hidx
          have hne : no ≠ [] := by
            intro hnil
            rw [hnil] at hno
            rw [List.Perm.eq_nil hno.symm] at hmem
            exact List.not_mem_nil _ hmem
          have hlen : 0 < no.length := List.length_pos.mpr hne
          exact hno.mem_iff.mp (getD_mem_of_lt no 0 0 hlen)
        · exact ⟨rfl, rfl, rfl, rfl, List.Perm.refl _, Or.inl rfl⟩
        · refine ⟨rfl, rfl, rfl, rfl, List.Perm.refl _, Or.inr (Or.inr ?_)⟩
          exact getD_mem_of_lt _ _ 0 (by omega)
    · exact hlinear hq

theorem goPrevious_facts (s : DaemonState) :
    (goPrevious s).1.queue = s.queue ∧
    (goPrevious s).1.shuffle = s.shuffle ∧
    (goPrevious s).1.repeatMode = s.repeatMode ∧
    (goPrevious s).1.playState = s.playState ∧
    (goPrevious s).1.shuffleOrder = s.shuffleOrder ∧
    ((goPrevious s).1.queuePos ≤ s.queuePos ∨
      (goPrevious s).1.queuePos < s.queue.length ∨
      (goPrevious s).1.queuePos ∈ s.shuffleOrder) := by
  have hlinear : s.queue ≠ [] →
      (goPrevLinear s).1.queue = s.queue ∧
      (goPrevLinear s).1.shuffle = s.shuffle ∧
      (goPrevLinear s).1.repeatMode = s.repeatMode ∧
      (goPrevLinear s).1.playState = s.playState ∧
      (goPrevLinear s).1.shuffleOrder = s.shuffleOrder ∧
      ((goPrevLinear s).1.queuePos ≤ s.queuePos ∨
        (goPrevLinear s).1.queuePos < s.queue.length ∨
        (goPrevLinear s).1.queuePos ∈ s.shuffleOrder) := by
    intro hq
    have hlen : 0 < s.queue.length := List.length_pos.mpr hq
    dsimp only [goPrevLinear]
    split_ifs with h1 h2
    · refine ⟨rfl, rfl, rfl, rfl, rfl, Or.inr (Or.inl ?_)⟩
      show s.queue.length - 1 < s.queue.length
      omega
    · exact ⟨rfl, rfl, rfl, rfl, rfl, Or.inl (Nat.le_refl _)⟩
    · refine ⟨rfl, rfl, rfl, rfl, rfl, Or.inl ?_⟩
      show s.queuePos - 1 ≤ s.queuePos
      omega
  unfold goPrevious
  split
  · exact ⟨rfl, rfl, rfl, rfl, rfl, Or.inl (Nat.le_refl _)⟩
  · rename_i hq
    split
    · rename_i hsh
      cases hidx : s.shuffleOrder.indexOf? s.queuePos with
      | none => exact hlinear hq
      | some idx =>
        have hlt : idx < s.shuffleOrder.length := indexOf?_some_lt hidx
        simp only
        split_ifs with h0 hrq
        · refine ⟨rfl, rfl, rfl, rfl, rfl, Or.inr (Or.inr ?_)⟩
          exact getD_mem_of_lt _ _ 0 (by omega)
        · exact ⟨rfl, rfl, rfl, rfl, rfl, Or.inl (Nat.le_refl _)⟩
        · refine ⟨rfl, rfl, rfl, rfl, rfl, Or.inr (Or.inr ?_)⟩
          exact getD_mem_of_lt _ _ 0 (by omega)
    · exact hlinear hq

theorem playCur_facts {s s' : DaemonState} {b : Bool} (h : PlayCur s s' b) :
    s'.queue = s.queue ∧
    s'.shuffle = s.shuffle ∧
    s'.repeatMode = s.repeatMode ∧
    s'.shuffleOrder.Perm s.shuffleOrder := by
  induction h with
  | emptyGuard s hg => exact ⟨rfl, rfl, rfl, List.Perm.refl _⟩
  | loadOk s hlt => exact ⟨rfl, rfl, rfl, List.Perm.refl _⟩
  | loadRaise s hlt => exact ⟨rfl, rfl, rfl, List.Perm.refl _⟩
  | loadFailEnd s no hlt hadv => exact ⟨rfl, rfl, rfl, List.Perm.refl _⟩
  | loadFailNext s s' no b hlt hno hadv hrec ih =>
    obtain ⟨a1, a2, a3, a4, a5, a6⟩ := advance_facts no s hno
    obtain ⟨i1, i2, i3, i4⟩ := ih
    exact ⟨i1.trans a1, i2.trans a2, i3.trans a3, i4.trans a5⟩

/-! ## Invariant preservation -/

theorem shuffleInsert_facts (trackIdx r : Nat) (s : DaemonState) :
    (shuffleInsert trackIdx r s).shuffleOrder.Perm (trackIdx :: s.shuffleOrder) ∧
    (shuffleInsert trackIdx r s).queue = s.queue ∧
    (shuffleInsert trackIdx r s).queuePos = s.queuePos ∧
    (shuffleInsert trackIdx r s).shuffle = s.shuffle ∧
    (shuffleInsert trackIdx r s).repeatMode = s.repeatMode ∧
    (shuffleInsert trackIdx r s).playState = s.playState := by
  unfold shuffleInsert
  split_ifs with h1 h2 <;>
    exact ⟨pyInsert_perm _ _ _, rfl, rfl, rfl, rfl, rfl⟩

/-- A state with the same queue and shuffle flag and a shuffle order that is a
permutation of the old one inherits the invariant. -/
theorem inv_of_facts {s s' : DaemonState}
    (hq : s'.queue = s.queue) (hsh : s'.shuffle = s.shuffle)
    (hord : s'.shuffleOrder.Perm s.shuffleOrder) (hs : Inv s) : Inv s' := by
  obtain ⟨h1, h2⟩ := hs
  refine ⟨fun hf => ?_, fun t ht => h2 t (hq ▸ ht)⟩
  rw [hsh] at hf
  exact List.Perm.eq_nil (h1 hf ▸ hord)

theorem playCur_pres {s s' : DaemonState} {b : Bool} (h : PlayCur s s' b)
    (hs : Inv s) : Inv s' := by
  obtain ⟨f1, f2, f3, f4⟩ := playCur_facts h
  exact inv_of_facts f1 f2 f4 hs

theorem advance_pres {no : List Nat} {s : DaemonState} (hno : no.Perm s.shuffleOrder)
    (hs : Inv s) : Inv (advance no s).1 := by
  obtain ⟨a1, a2, a3, a4, a5, a6⟩ := advance_facts no s hno
  exact inv_of_facts a1 a2 a5 hs

theorem goPrevious_pres {s : DaemonState} (hs : Inv s) : Inv (goPrevious s).1 := by
  obtain ⟨a1, a2, a3, a4, a5, a6⟩ := goPrevious_facts s
  refine inv_of_facts a1 a2 ?_ hs
  rw [a5]

theorem cmdAdd_pres (uri : String) (r : Nat) (s : DaemonState)
    (hsupp : isSupported uri = true) (hs : Inv s) : Inv (cmdAdd uri r s) := by
  obtain ⟨hoff, hall⟩ := hs
  have hall1 : ∀ t ∈ s.queue ++ [uri], isSupported t = true := by
    intro t ht
    rcases List.mem_append.mp ht with h | h
    · exact hall t h
    · rw [List.mem_singleton.mp h]
      exact hsupp
  unfold cmdAdd
  dsimp only
  split_ifs with hsh
  · obtain ⟨f1, f2, f3, f4, f5, f6⟩ := shuffleInsert_facts ((s.queue ++ [uri]).length - 1) r
      { s with queue := s.queue ++ [uri] }
    refine ⟨?_, ?_⟩
    · intro hsf
      rw [f4] at hsf
      exact absurd hsf (by simp [hsh])
    · rw [f2]
      exact hall1
  · exact ⟨fun h => hoff h, hall1⟩

theorem cmdPlayFilePre_pres (file : String) (r : Nat) (s : DaemonState)
    (hsupp : isSupported file = true) (hs : Inv s) : Inv (cmdPlayFilePre file r s) := by
  obtain ⟨hoff, hall⟩ := hs
  have hall1 : ∀ t ∈ s.queue ++ [file], isSupported t = true := by
    intro t ht
    rcases List.mem_append.mp ht with h | h
    · exact hall t h
    · rw [List.mem_singleton.mp h]
      exact hsupp
  unfold cmdPlayFilePre
  dsimp only
  split_ifs with hsh
  · obtain ⟨f1, f2, f3, f4, f5, f6⟩ := shuffleInsert_facts ((s.queue ++ [file]).length - 1) r
      { s with queue := s.queue ++ [file], queuePos := s.queue.length }
    refine ⟨?_, ?_⟩
    · intro hsf
      rw [f4] at hsf
      exact absurd hsf (by simp [hsh])
    · rw [f2]
      exact hall1
  · exact ⟨fun h => hoff h, hall1⟩

theorem getD_mem_of_lt_gen {α : Type} (l : List α) (n : Nat) (d : α) (h : n < l.length) :
    l.getD n d ∈ l := by
  rw [List.getD_eq_getElem?_getD, List.getElem?_eq_getElem h]
  exact List.getElem_mem h

theorem removeFixOrder_facts (idx : Nat) (s2 : DaemonState) :
    (removeFixOrder idx s2).queue = s2.queue ∧
    (removeFixOrder idx s2).queuePos = s2.queuePos ∧
    (removeFixOrder idx s2).shuffle = s2.shuffle ∧
    (removeFixOrder idx s2).repeatMode = s2.repeatMode ∧
    (removeFixOrder idx s2).playState = s2.playState := by
  unfold removeFixOrder
  split_ifs <;> exact ⟨rfl, rfl, rfl, rfl, rfl⟩

/-- `removeFixOrder` is the identity when the order is empty. -/
theorem removeFixOrder_nil {idx : Nat} {s2 : DaemonState}
    (hnil : s2.shuffleOrder = []) : removeFixOrder idx s2 = s2 := by
  unfold removeFixOrder
  rw [if_neg]
  intro hcon
  exact hcon.2 hnil

theorem removeFixOrder_pres (idx : Nat) {s2 : DaemonState} (hs : Inv s2) :
    Inv (removeFixOrder idx s2) := by
  obtain ⟨h1, h2⟩ := hs
  obtain ⟨g1, g2, g3, g4, g5⟩ := removeFixOrder_facts idx s2
  refine ⟨fun hf => ?_, fun t ht => h2 t (g1 ▸ ht)⟩
  rw [g3] at hf
  rw [removeFixOrder_nil (h1 hf)]
  exact h1 hf

/-- `queue.pop(idx)` only shrinks the queue. -/
theorem removePop_inv {idx : Nat} {s : DaemonState} (hs : Inv s) :
    Inv (removePop idx s) :=
  ⟨hs.1, fun t ht => hs.2 t (List.mem_of_mem_eraseIdx ht)⟩

theorem cmdMove_pres (i j : Nat) (s : DaemonState) (hi : i < s.queue.length)
    (hs : Inv s) : Inv (cmdMove i j s) := by
  refine ⟨fun hf => hs.1 hf, fun t ht => ?_⟩
  have ht2 : t ∈ (s.queue.getD i "") :: s.queue.eraseIdx i :=
    (pyInsert_perm (s.queue.eraseIdx i) j (s.queue.getD i "")).mem_iff.mp ht
  rcases List.mem_cons.mp ht2 with h | h
  · rw [h]
    exact hs.2 _ (getD_mem_of_lt_gen s.queue i "" hi)
  · exact hs.2 t (List.mem_of_mem_eraseIdx h)

theorem cmdShuffleOn_pres (order : List Nat) (s : DaemonState) (hs : Inv s) :
    Inv (cmdShuffleOn order s) := by
  unfold cmdShuffleOn
  split_ifs with hmem
  · exact ⟨fun hsf => Bool.noConfusion hsf, hs.2⟩
  · exact ⟨fun hsf => Bool.noConfusion hsf, hs.2⟩

theorem cmdLoad_pres (tracks : List String) (order : List Nat) (s : DaemonState) :
    Inv (cmdLoad tracks order s) := by
  unfold cmdLoad
  dsimp only
  split_ifs with hsh
  · refine ⟨?_, fun t ht => List.of_mem_filter ht⟩
    intro hsf
    have hsf2 : s.shuffle = false := hsf
    have hsh2 : s.shuffle = true := hsh
    rw [hsf2] at hsh2
    exact Bool.noConfusion hsh2
  · exact ⟨fun _ => rfl, fun t ht => List.of_mem_filter ht⟩

theorem step_inv {s s' : DaemonState} (h : Step s s') (hs : Inv s) : Inv s' := by
  cases h with
  | playFile s' file r b hsupp hpc =>
    exact playCur_pres hpc (cmdPlayFilePre_pres file r s hsupp hs)
  | playUnpause hps => exact ⟨hs.1, hs.2⟩
  | playStopped s' b hps hq hpc => exact playCur_pres hpc hs
  | pause hps => exact ⟨hs.1, hs.2⟩
  | stop => exact ⟨hs.1, hs.2⟩
  | next s' no b hno hadv hpc => exact playCur_pres hpc (advance_pres hno hs)
  | prev s' b hadv hpc => exact playCur_pres hpc (goPrevious_pres hs)
  | add uri r hsupp => exact cmdAdd_pres uri r s hsupp hs
  | removeLt idx hlt hltpos => exact removeFixOrder_pres idx (removePop_inv hs)
  | removePlay s2 idx hlt heq hps hlt2 hpc =>
    exact removeFixOrder_pres idx (playCur_pres hpc (removePop_inv hs))
  | removePlayAbort s2 idx hlt heq hps hlt2 hpc =>
    exact playCur_pres hpc (removePop_inv hs)
  | removePlayEnd idx hlt heq hps hnl => exact removeFixOrder_pres idx (removePop_inv hs)
  | removeOther idx hlt hge hnot => exact removeFixOrder_pres idx (removePop_inv hs)
  | move i j hi hj => exact cmdMove_pres i j s hi hs
  | clear => exact ⟨fun _ => rfl, fun t ht => absurd ht (List.not_mem_nil t)⟩
  | jump s' idx b hlt hpc => exact playCur_pres hpc ⟨hs.1, hs.2⟩
  | shuffleOn order horder => exact cmdShuffleOn_pres order s hs
  | shuffleOff => exact ⟨fun _ => rfl, hs.2⟩
  | setRepeat m => exact ⟨hs.1, hs.2⟩
  | load tracks order hp => exact cmdLoad_pres tracks order s
  | trackEndRepeat s' b hrt hpc => exact playCur_pres hpc hs
  | trackEndAdvance s' no b hrt hno hadv hpc =>
    exact playCur_pres hpc (advance_pres hno hs)
  | trackEndStop no hrt hadv => exact ⟨hs.1, hs.2⟩

theorem initState_inv : Inv initState :=
  ⟨fun _ => rfl, fun t ht => absurd ht (List.not_mem_nil t)⟩

theorem reachable_inv {s : DaemonState} (h : Reachable s) : Inv s := by
  induction h with
  | refl => exact initState_inv
  | tail hab hstep ih => exact step_inv hstep ih

/-! ## Claim theorems -/

/-- C3 (code bug): the spec's invariant — with shuffle enabled,
`shuffle_order` is a permutation of `{0, …, len(queue)−1}` — is violated by a
reachable state.  `add ok.mp3; add bad.mp3; shuffle on; play; remove 0`, where
`bad.mp3` has a supported extension but a corrupt payload, reaches a state
with `shuffle = true`, `len(queue) = 1` and `shuffle_order = [0, 1]`:
`miniaudio.decode_file` raises `DecodeError`, which `_play_current` catches
only as `(FileNotFoundError, ValueError)`, so the exception escapes
`_cmd_remove` before its shuffle-order fixup runs. -/
theorem C3_uncaught_decode_error_breaks_permutation :
    Reachable c3FailState ∧
    c3FailState.shuffle = true ∧
    ¬ c3FailState.shuffleOrder.Perm (List.range c3FailState.queue.length) := by
  refine ⟨?_, by decide, by decide⟩
  have h1 : Step initState c3StateA := by
    have h := Step.add initState "ok.mp3" 0 (by decide)
    rwa [show cmdAdd "ok.mp3" 0 initState = c3StateA from by decide] at h
  have h2 : Step c3StateA c3StateB := by
    have h := Step.add c3StateA "bad.mp3" 0 (by decide)
    rwa [show cmdAdd "bad.mp3" 0 c3StateA = c3StateB from by decide] at h
  have h3 : Step c3StateB c3StateC := by
    have h := Step.shuffleOn c3StateB [0, 1] (by decide)
    rwa [show cmdShuffleOn [0, 1] c3StateB = c3StateC from by decide] at h
  have h4 : Step c3StateC c3StateD :=
    Step.playStopped c3StateC c3StateD true (by decide) (by decide)
      (show PlayCur c3StateC c3StateD true from PlayCur.loadOk c3StateC (by decide))
  have h5 : Step c3StateD c3FailState :=
    Step.removePlayAbort c3StateD c3FailState 0 (by decide) (by decide) (by decide)
      (by decide)
      (show PlayCur (removePop 0 c3StateD) c3FailState false from
        PlayCur.loadRaise c3FailState (by decide))
  exact Relation.ReflTransGen.head h1 (Relation.ReflTransGen.head h2
    (Relation.ReflTransGen.head h3 (Relation.ReflTransGen.head h4
      (Relation.ReflTransGen.single h5))))

/-- C4 counterexample: from a state satisfying `shuffle_order = ∅ ⇔ ¬shuffle`
(one queued track, shuffle on, order `[0]`), a single `remove 0` yields
shuffle still on with an empty shuffle order, so the claimed equivalence is
not preserved by remove. -/
theorem C4_counterexample :
    (c4StartState.shuffleOrder = [] ↔ c4StartState.shuffle = false) ∧
    Step c4StartState c4EndState ∧
    ¬ (c4EndState.shuffleOrder = [] ↔ c4EndState.shuffle = false) := by
  refine ⟨by decide, ?_, by decide⟩
  have h := Step.removeOther c4StartState 0 (by decide) (by decide) (by decide)
  rwa [show removeFixOrder 0 (removePop 0 c4StartState) = c4EndState from by decide] at h

/-- C4 (amended): in every reachable state — in particular after any sequence
of `add`, `remove` and `move` from the initial state — if shuffle is off then
the shuffle order is empty.  The converse direction of the spec's equivalence
fails (see the counterexample: removing the last queued track with shuffle on
leaves the flag set with an empty order), and adding a queue-empty disjunct
does not repair it either, because the uncaught decode error abort in
`_cmd_remove` (see C3) can strand a non-empty stale order next to an empty
queue. -/
theorem C4_amended_shuffle_off_order_empty {s : DaemonState}
    (hreach : Reachable s) (hsf : s.shuffle = false) : s.shuffleOrder = [] :=
  (reachable_inv hreach).1 hsf

/-- Witness for the amended C4 at the initial state. -/
theorem C4_amended_shuffle_off_order_empty_witness : initState.shuffleOrder = [] :=
  C4_amended_shuffle_off_order_empty Relation.ReflTransGen.refl rfl

/-- C2 (code bug): the state reached by
`add a.mp3; add b.mp3; jump 1; remove 1` has a non-empty queue but
`queue_pos = 1 = len(queue)`, violating `0 ≤ queue_pos < len(queue)`; the
dangling index also makes `self.queue[self.queue_pos]` (as evaluated by
`_cmd_status`) fail. -/
theorem C2_remove_last_while_playing_dangles_pos :
    Reachable c2FailState ∧
    c2FailState.queue ≠ [] ∧
    ¬ (c2FailState.queuePos < c2FailState.queue.length) ∧
    c2FailState.queue[c2FailState.queuePos]? = none := by
  refine ⟨?_, by decide, by decide, by decide⟩
  have h1 : Step initState c2StateA := by
    have h := Step.add initState "a.mp3" 0 (by decide)
    rwa [show cmdAdd "a.mp3" 0 initState = c2StateA from by decide] at h
  have h2 : Step c2StateA c2StateAB := by
    have h := Step.add c2StateA "b.mp3" 0 (by decide)
    rwa [show cmdAdd "b.mp3" 0 c2StateA = c2StateAB from by decide] at h
  have h3 : Step c2StateAB c2StateABJ :=
    Step.jump _ _ 1 true (by decide)
      (show PlayCur { c2StateAB with queuePos := 1 } c2StateABJ true from
        PlayCur.loadOk { c2StateAB with queuePos := 1 } (by decide))
  have h4 : Step c2StateABJ c2FailState := by
    have h := Step.removePlayEnd c2StateABJ 1 (by decide) (by decide) (by decide) (by decide)
    rwa [show removeFixOrder 1
      { removePop 1 c2StateABJ with playState := PlayState.stopped } = c2FailState
      from by decide] at h
  exact Relation.ReflTransGen.head h1 (Relation.ReflTransGen.head h2
    (Relation.ReflTransGen.head h3 (Relation.ReflTransGen.single h4)))

/-- `_advance` with shuffle off, a non-empty queue, `repeat == "none"` and the
position at (or past) the last index returns `False` without mutating. -/
theorem advance_linear_end (no : List Nat) (s : DaemonState) (hsh : s.shuffle = false)
    (hq : s.queue ≠ []) (hrm : s.repeatMode = .rnone)
    (hpos : s.queue.length ≤ s.queuePos + 1) :
    advance no s = (s, false) := by
  unfold advance
  rw [if_neg hq, if_neg (show ¬ s.shuffle = true from by rw [hsh]; simp)]
  unfold advanceLinear
  dsimp only
  rw [if_pos hpos, if_neg (show ¬ s.repeatMode = .rqueue from by rw [hrm]; decide)]

/-- `_go_previous` with shuffle off, a non-empty queue, `repeat == "none"` and
the position at 0 returns `False` without mutating. -/
theorem goPrevious_start (s : DaemonState) (hsh : s.shuffle = false)
    (hq : s.queue ≠ []) (hrm : s.repeatMode = .rnone) (hpos : s.queuePos = 0) :
    goPrevious s = (s, false) := by
  unfold goPrevious
  rw [if_neg hq, if_neg (show ¬ s.shuffle = true from by rw [hsh]; simp)]
  unfold goPrevLinear
  rw [if_pos hpos, if_neg (show ¬ s.repeatMode = .rqueue from by rw [hrm]; decide)]

/-- C5 (amended): with repeat = none and **shuffle off**, `next` issued at the
last queue position answers `data.error = "End of queue"` and `prev` issued at
position 0 answers `data.error = "Start of queue"`, in both cases leaving
queue, queue_pos, shuffle_order and playback state exactly as before.  (With
shuffle on, the position in `shuffle_order`, not the queue position, decides
the boundary — see the counterexample.) -/
theorem C5_next_prev_boundary {s : DaemonState} (hsh : s.shuffle = false)
    (hrm : s.repeatMode = .rnone) (hq : s.queue ≠ []) :
    (∀ s' r no, s.queuePos = s.queue.length - 1 → CmdNext no s s' r →
      s' = s ∧ r = .errMsg "End of queue") ∧
    (∀ s' r, s.queuePos = 0 → CmdPrev s s' r →
      s' = s ∧ r = .errMsg "Start of queue") := by
  have hlen : 0 < s.queue.length := List.length_pos.mpr hq
  constructor
  · intro s' r no hlast hnext
    have hadv : advance no s = (s, false) :=
      advance_linear_end no s hsh hq hrm (by omega)
    cases hnext with
    | adv s' hno h2 hpc =>
      rw [hadv] at h2
      simp at h2
    | advRaise s' hno h2 hpc =>
      rw [hadv] at h2
      simp at h2
    | atEnd h2 => exact ⟨rfl, rfl⟩
  · intro s' r h0 hprev
    have hgp : goPrevious s = (s, false) := goPrevious_start s hsh hq hrm h0
    cases hprev with
    | adv s' h2 hpc =>
      rw [hgp] at h2
      simp at h2
    | advRaise s' h2 hpc =>
      rw [hgp] at h2
      simp at h2
    | atStart h2 => exact ⟨rfl, rfl⟩

/-- Witness for C5 on a one-track stopped queue: both boundary commands
answer their error and leave the state untouched. -/
theorem C5_next_prev_boundary_witness :
    (c5LinearState = c5LinearState ∧
      Resp.errMsg "End of queue" = Resp.errMsg "End of queue") ∧
    (c5LinearState = c5LinearState ∧
      Resp.errMsg "Start of queue" = Resp.errMsg "Start of queue") := by
  have hth := C5_next_prev_boundary (show c5LinearState.shuffle = false from by decide)
    (show c5LinearState.repeatMode = .rnone from by decide)
    (show c5LinearState.queue ≠ [] from by decide)
  have hnext : CmdNext [] c5LinearState c5LinearState (.errMsg "End of queue") :=
    CmdNext.atEnd _ (by decide)
  have hprev : CmdPrev c5LinearState c5LinearState (.errMsg "Start of queue") :=
    CmdPrev.atStart _ (by decide)
  exact ⟨hth.1 c5LinearState (.errMsg "End of queue") [] (by decide) hnext,
    hth.2 c5LinearState (.errMsg "Start of queue") (by decide) hprev⟩

/-- C5 counterexample: in the reachable state `c5ShuffleState` (repeat = none,
`queue_pos = 1` the last queue position, shuffle on with order `[1, 0]`),
`next` succeeds with `{"queue_position": 0}` instead of the claimed
`data.error = "End of queue"`. -/
theorem C5_counterexample :
    Reachable c5ShuffleState ∧
    c5ShuffleState.repeatMode = .rnone ∧
    c5ShuffleState.queuePos = c5ShuffleState.queue.length - 1 ∧
    CmdNext [0, 1] c5ShuffleState { c5ShuffleState with queuePos := 0 } (.qpos 0) ∧
    Resp.qpos 0 ≠ .errMsg "End of queue" := by
  refine ⟨?_, by decide, by decide, ?_, by decide⟩
  · have h1 : Step initState c2StateA := by
      have h := Step.add initState "a.mp3" 0 (by decide)
      rwa [show cmdAdd "a.mp3" 0 initState = c2StateA from by decide] at h
    have h2 : Step c2StateA c2StateAB := by
      have h := Step.add c2StateA "b.mp3" 0 (by decide)
      rwa [show cmdAdd "b.mp3" 0 c2StateA = c2StateAB from by decide] at h
    have h3 : Step c2StateAB c2StateABJ :=
      Step.jump _ _ 1 true (by decide)
        (show PlayCur { c2StateAB with queuePos := 1 } c2StateABJ true from
          PlayCur.loadOk { c2StateAB with queuePos := 1 } (by decide))
    have h4 : Step c2StateABJ c5ShuffleState := by
      have h := Step.shuffleOn c2StateABJ [1, 0] (by decide)
      rwa [show cmdShuffleOn [1, 0] c2StateABJ = c5ShuffleState from by decide] at h
    exact Relation.ReflTransGen.head h1 (Relation.ReflTransGen.head h2
      (Relation.ReflTransGen.head h3 (Relation.ReflTransGen.single h4)))
  · have hpc : PlayCur (advance [0, 1] c5ShuffleState).1 { c5ShuffleState with queuePos := 0 } true :=
      show PlayCur { c5ShuffleState with queuePos := 0 } { c5ShuffleState with queuePos := 0 } true from
        PlayCur.loadOk { c5ShuffleState with queuePos := 0 } (by decide)
    exact CmdNext.adv _ _ (by decide) (by decide) hpc

/-- C1 counterexample: for `add` dispatched on an empty outgoing queue, the
`queue_updated` event line sits *before* the response line in the response
queue, so the response does not precede the command's events. -/
theorem C1_counterexample :
    (dispatchAdd "a.mp3" 0 [] initState).2 =
      [eventLine "queue_updated", respLine "add"] ∧
    ¬ (List.indexOf (respLine "add") (dispatchAdd "a.mp3" 0 [] initState).2 <
        List.indexOf (eventLine "queue_updated") (dispatchAdd "a.mp3" 0 [] initState).2) := by
  constructor
  · rfl
  · decide

/-- C1 (amended): a handler's events are enqueued on the outgoing response
queue while the handler runs and the response is enqueued after it returns,
so for `add`, `clear` and `move` every event line of the command precedes its
response line (they are dropped, never reordered, when the queue is full). -/
theorem C1_amended_events_precede_response (uri : String) (r i j : Nat)
    (outq : List String) (s : DaemonState) :
    (dispatchAdd uri r outq s).2 = outq ++ [eventLine "queue_updated", respLine "add"] ∧
    (dispatchClear outq s).2 = outq ++ [eventLine "queue_updated", respLine "clear"] ∧
    (dispatchMove i j outq s).2 = outq ++ [eventLine "queue_updated", respLine "move"] ∧
    List.indexOf (eventLine "queue_updated") [eventLine "queue_updated", respLine "add"] <
      List.indexOf (respLine "add") [eventLine "queue_updated", respLine "add"] ∧
    List.indexOf (eventLine "queue_updated") [eventLine "queue_updated", respLine "clear"] <
      List.indexOf (respLine "clear") [eventLine "queue_updated", respLine "clear"] ∧
    List.indexOf (eventLine "queue_updated") [eventLine "queue_updated", respLine "move"] <
      List.indexOf (respLine "move") [eventLine "queue_updated", respLine "move"] := by
  refine ⟨by simp [dispatchAdd], by simp [dispatchClear], by simp [dispatchMove],
    by decide, by decide, by decide⟩

theorem getElem?_insertIdx_of_lt {α : Type} (l : List α) (x : α) (n k : Nat)
    (hn : n ≤ l.length) (hk : k < n) : (List.insertIdx n x l)[k]? = l[k]? := by
  have hkl : k < l.length := lt_of_lt_of_le hk hn
  have hlen : (List.insertIdx n x l).length = l.length + 1 := List.length_insertIdx n l hn
  rw [List.getElem?_eq_getElem hkl, List.getElem?_eq_getElem (by omega)]
  exact congrArg some (List.getElem_insertIdx_of_lt l x n k hk hkl)

theorem getElem?_insertIdx_at {α : Type} (l : List α) (x : α) (n : Nat)
    (hn : n ≤ l.length) : (List.insertIdx n x l)[n]? = some x := by
  have hlen : (List.insertIdx n x l).length = l.length + 1 := List.length_insertIdx n l hn
  rw [List.getElem?_eq_getElem (by omega)]
  exact congrArg some (List.getElem_insertIdx_self l x n hn)

theorem getElem?_insertIdx_of_gt {α : Type} (l : List α) (x : α) (n k : Nat)
    (hn : n ≤ l.length) (hk : n < k) : (List.insertIdx n x l)[k]? = l[k - 1]? := by
  have hlen : (List.insertIdx n x l).length = l.length + 1 := List.length_insertIdx n l hn
  by_cases hkl : k - 1 < l.length
  · obtain ⟨m, rfl⟩ : ∃ m, k = n + m + 1 := ⟨k - n - 1, by omega⟩
    rw [show n + m + 1 - 1 = n + m from by omega]
    rw [List.getElem?_eq_getElem (by omega),
      List.getElem?_eq_getElem (show n + m < l.length from by omega)]
    exact congrArg some (List.getElem_insertIdx_add_succ l x n m (by omega))
  · rw [List.getElem?_eq_none (by omega), List.getElem?_eq_none (by omega)]

/-- C6: `move(i, j)` on valid indices produces the queue with the element at
`i` removed and reinserted at `j`, updates `queue_pos` by exactly the
three-case rule, and the track referred to by `queue_pos` is the same before
and after. -/
theorem C6_move_three_case_rule (i j : Nat) (s : DaemonState)
    (hi : i < s.queue.length) (hj : j < s.queue.length)
    (hpos : s.queuePos < s.queue.length) :
    (cmdMove i j s).queue =
      List.insertIdx j (s.queue.getD i "") (s.queue.eraseIdx i) ∧
    (cmdMove i j s).queuePos =
      (if i = s.queuePos then j
       else if i < s.queuePos ∧ s.queuePos ≤ j then s.queuePos - 1
       else if j ≤ s.queuePos ∧ s.queuePos < i then s.queuePos + 1
       else s.queuePos) ∧
    (cmdMove i j s).queue[(cmdMove i j s).queuePos]? = s.queue[s.queuePos]? := by
  have hplen : (s.queue.eraseIdx i).length = s.queue.length - 1 := by
    rw [List.length_eraseIdx, if_pos hi]
  have hjle : j ≤ (s.queue.eraseIdx i).length := by omega
  have hq : (cmdMove i j s).queue =
      List.insertIdx j (s.queue.getD i "") (s.queue.eraseIdx i) := by
    show pyInsert (s.queue.eraseIdx i) j (s.queue.getD i "") = _
    unfold pyInsert
    rw [min_eq_left hjle]
  have hgi : s.queue[i]? = some (s.queue.getD i "") := by
    rw [List.getD_eq_getElem?_getD, List.getElem?_eq_getElem hi]
    rfl
  refine ⟨hq, rfl, ?_⟩
  rw [hq]
  show (List.insertIdx j (s.queue.getD i "") (s.queue.eraseIdx i))[
    (if i = s.queuePos then j
     else if i < s.queuePos ∧ s.queuePos ≤ j then s.queuePos - 1
     else if j ≤ s.queuePos ∧ s.queuePos < i then s.queuePos + 1
     else s.queuePos)]? = s.queue[s.queuePos]?
  by_cases h1 : i = s.queuePos
  · rw [if_pos h1, getElem?_insertIdx_at _ _ _ hjle, ← h1, hgi]
  · rw [if_neg h1]
    by_cases h2 : i < s.queuePos ∧ s.queuePos ≤ j
    · rw [if_pos h2]
      rw [getElem?_insertIdx_of_lt _ _ _ _ hjle (by omega)]
      rw [List.getElem?_eraseIdx]
      rw [if_neg (by omega)]
      congr 1
      omega
    · rw [if_neg h2]
      by_cases h3 : j ≤ s.queuePos ∧ s.queuePos < i
      · rw [if_pos h3]
        rw [getElem?_insertIdx_of_gt _ _ _ _ hjle (by omega)]
        rw [show s.queuePos + 1 - 1 = s.queuePos from by omega]
        rw [List.getElem?_eraseIdx, if_pos (by omega)]
      · rw [if_neg h3]
        by_cases h4 : s.queuePos < j
        · have h5 : s.queuePos < i := by omega
          rw [getElem?_insertIdx_of_lt _ _ _ _ hjle h4]
          rw [List.getElem?_eraseIdx, if_pos h5]
        · have h5 : i < s.queuePos := by omega
          have h6 : j < s.queuePos := by omega
          rw [getElem?_insertIdx_of_gt _ _ _ _ hjle h6]
          rw [List.getElem?_eraseIdx, if_neg (by omega)]
          congr 1
          omega

/-- Witness for C6: moving index 0 to index 2 in a three-track queue with the
current position at 1. -/
theorem C6_move_three_case_rule_witness :
    (cmdMove 0 2 c6WitnessState).queue =
      List.insertIdx 2 (c6WitnessState.queue.getD 0 "") (c6WitnessState.queue.eraseIdx 0) ∧
    (cmdMove 0 2 c6WitnessState).queuePos =
      (if 0 = c6WitnessState.queuePos then 2
       else if 0 < c6WitnessState.queuePos ∧ c6WitnessState.queuePos ≤ 2 then
        c6WitnessState.queuePos - 1
       else if 2 ≤ c6WitnessState.queuePos ∧ c6WitnessState.queuePos < 0 then
        c6WitnessState.queuePos + 1
       else c6WitnessState.queuePos) ∧
    (cmdMove 0 2 c6WitnessState).queue[(cmdMove 0 2 c6WitnessState).queuePos]? =
      c6WitnessState.queue[c6WitnessState.queuePos]? :=
  C6_move_three_case_rule 0 2 c6WitnessState (by decide) (by decide) (by decide)

/-- C7 counterexample: a callback requesting 3 output frames at rate 0.5 makes
the generator request `int(3 * 0.5) = 1` source frame (truncation), not
`round(3 * 0.5) = 2`, and the read from a long buffer returns exactly that one
frame. -/
theorem C7_counterexample :
    sourceFramesFor 3 (1/2 : ℚ) = 1 ∧
    round ((3 : ℚ) * (1/2 : ℚ)) = (2 : ℤ) ∧
    readChunkSamples (sourceFramesFor 3 (1/2 : ℚ)) { totalFrames := 100, position := 0 } =
      CHANNELS * 1 ∧
    (1 : ℕ) ≠ 2 := by
  have hsf : sourceFramesFor 3 (1/2 : ℚ) = 1 := by
    norm_num [sourceFramesFor, pyInt]
  refine ⟨hsf, ?_, ?_, by decide⟩
  · rw [round_eq]
    norm_num
  · rw [hsf]
    norm_num [readChunkSamples, CHANNELS]

/-- C7 (amended): while playing, a callback for `N` output frames reads
exactly `N` source frames when rate = 1.0 and exactly `int(N × rate)` source
frames (truncated toward zero, not rounded to nearest) when rate ≠ 1.0,
provided the buffer has that much material left. -/
theorem C7_amended_source_read_truncates (N : Nat) (rate : ℚ) (p : PlayerBuf)
    (hrate : 0 < rate) (hcur : p.position ≤ p.totalFrames)
    (hroom : p.position + sourceFramesFor N rate ≤ p.totalFrames) :
    readChunkSamples (sourceFramesFor N rate) p = CHANNELS * sourceFramesFor N rate ∧
    (readChunkPos (sourceFramesFor N rate) p).position =
      p.position + sourceFramesFor N rate ∧
    (rate = 1 → sourceFramesFor N rate = N) ∧
    (rate ≠ 1 → (sourceFramesFor N rate : ℤ) = ⌊(N : ℚ) * rate⌋) := by
  refine ⟨?_, ?_, ?_, ?_⟩
  · unfold readChunkSamples CHANNELS
    omega
  · show min (p.position + sourceFramesFor N rate) p.totalFrames =
      p.position + sourceFramesFor N rate
    omega
  · intro h1
    simp [sourceFramesFor, h1]
  · intro h1
    unfold sourceFramesFor
    rw [if_pos h1]
    unfold pyInt
    have hnn : (0 : ℚ) ≤ (N : ℚ) * rate := mul_nonneg (Nat.cast_nonneg N) hrate.le
    rw [if_neg (not_lt.mpr hnn)]
    exact Int.toNat_of_nonneg (Int.floor_nonneg.mpr hnn)

/-- Witness for C7 (amended) at `N = 3`, rate = 1/2, a fresh 100-frame buffer. -/
theorem C7_amended_source_read_truncates_witness :
    readChunkSamples (sourceFramesFor 3 (1/2 : ℚ)) { totalFrames := 100, position := 0 } =
      CHANNELS * sourceFramesFor 3 (1/2 : ℚ) ∧
    (readChunkPos (sourceFramesFor 3 (1/2 : ℚ))
      { totalFrames := 100, position := 0 }).position =
        (0 : Nat) + sourceFramesFor 3 (1/2 : ℚ) ∧
    ((1/2 : ℚ) = 1 → sourceFramesFor 3 (1/2 : ℚ) = 3) ∧
    ((1/2 : ℚ) ≠ 1 → (sourceFramesFor 3 (1/2 : ℚ) : ℤ) = ⌊(3 : ℚ) * (1/2 : ℚ)⌋) :=
  C7_amended_source_read_truncates 3 (1/2 : ℚ) { totalFrames := 100, position := 0 }
    (by norm_num) (by decide)
    (by
      show (0 : Nat) + sourceFramesFor 3 (1/2 : ℚ) ≤ 100
      rw [show sourceFramesFor 3 (1/2 : ℚ) = 1 from by norm_num [sourceFramesFor, pyInt]]
      omega)

/-- C8: a read of `N` frames at cursor `p ≤ total` returns exactly
`min(N, total − p)` frames (as `2·min` interleaved samples) and advances the
cursor by the same amount, so the cursor never exceeds `total_frames`; and
`seek(seconds)` sets the cursor to `clamp(int(seconds × 44100), 0, total − 1)`,
which also stays within `total_frames`. -/
theorem C8_read_advances_and_seek_clamps (N : Nat) (p : PlayerBuf) (secs : ℚ)
    (hcur : p.position ≤ p.totalFrames) :
    readChunkSamples N p = CHANNELS * min N (p.totalFrames - p.position) ∧
    (readChunkPos N p).position = p.position + min N (p.totalFrames - p.position) ∧
    (readChunkPos N p).position ≤ p.totalFrames ∧
    (seekF secs p).position =
      (max 0 (min (pyInt (secs * (SAMPLE_RATE : ℚ))) ((p.totalFrames : ℤ) - 1))).toNat ∧
    (seekF secs p).position ≤ p.totalFrames := by
  refine ⟨?_, ?_, ?_, rfl, ?_⟩
  · unfold readChunkSamples CHANNELS
    omega
  · show min (p.position + N) p.totalFrames = p.position + min N (p.totalFrames - p.position)
    omega
  · show min (p.position + N) p.totalFrames ≤ p.totalFrames
    omega
  · show (max 0 (min (pyInt (secs * (SAMPLE_RATE : ℚ))) ((p.totalFrames : ℤ) - 1))).toNat ≤
      p.totalFrames
    omega

/-- Witness for C8: a 7-frame read and a 5-second seek on a 100-frame buffer
with the cursor at 10. -/
theorem C8_read_advances_and_seek_clamps_witness :
    readChunkSamples 7 { totalFrames := 100, position := 10 } =
      CHANNELS * min 7 ((100 : Nat) - 10) ∧
    (readChunkPos 7 { totalFrames := 100, position := 10 }).position =
      10 + min 7 ((100 : Nat) - 10) ∧
    (readChunkPos 7 { totalFrames := 100, position := 10 }).position ≤ 100 ∧
    (seekF 5 { totalFrames := 100, position := 10 }).position =
      (max 0 (min (pyInt ((5 : ℚ) * (SAMPLE_RATE : ℚ))) ((100 : ℤ) - 1))).toNat ∧
    (seekF 5 { totalFrames := 100, position := 10 }).position ≤ 100 :=
  C8_read_advances_and_seek_clamps 7 { totalFrames := 100, position := 10 } 5 (by decide)

/-- C10: for a resolved seek target `t ≥ 0`, the success response reports
`position = t` while the engine cursor is clamped to
`[0, total_frames − 1]`; whenever `t` exceeds the track duration the position
reported by `seek` disagrees with the engine position a `status` would
report. -/
theorem C10_seek_reports_unclamped_position (t : ℚ) (p : PlayerBuf) (ht : 0 ≤ t) :
    (cmdSeekResolved t p).2 = t ∧
    (cmdSeekResolved t p).1.position =
      (max 0 (min (pyInt (t * (SAMPLE_RATE : ℚ))) ((p.totalFrames : ℤ) - 1))).toNat ∧
    (getDuration p < t → getPosition (cmdSeekResolved t p).1 ≠ (cmdSeekResolved t p).2) := by
  have hmax : max 0 t = t := max_eq_right ht
  refine ⟨hmax, ?_, ?_⟩
  · show (seekF (max 0 t) p).position =
      (max 0 (min (pyInt (t * (SAMPLE_RATE : ℚ))) ((p.totalFrames : ℤ) - 1))).toNat
    rw [hmax]
    rfl
  · intro hdur
    show getPosition (seekF (max 0 t) p) ≠ max 0 t
    rw [hmax]
    have hle : (seekF t p).position ≤ p.totalFrames := by
      show (max 0 (min (pyInt (t * (SAMPLE_RATE : ℚ)))
        ((p.totalFrames : ℤ) - 1))).toNat ≤ p.totalFrames
      omega
    have hq : getPosition (seekF t p) ≤ getDuration p := by
      unfold getPosition getDuration
      have hc : ((seekF t p).position : ℚ) ≤ (p.totalFrames : ℚ) :=
        Nat.cast_le.mpr hle
      have hsr : (0 : ℚ) < (SAMPLE_RATE : ℚ) := by norm_num [SAMPLE_RATE]
      exact (div_le_div_iff_of_pos_right hsr).mpr hc
    exact ne_of_lt (lt_of_le_of_lt hq hdur)

/-- Witness for C10: seeking to 10 s in a 1-second (44100-frame) track. -/
theorem C10_seek_reports_unclamped_position_witness :
    getDuration { totalFrames := 44100, position := 0 } < 10 ∧
    getPosition (cmdSeekResolved 10 { totalFrames := 44100, position := 0 }).1 ≠
      (cmdSeekResolved 10 { totalFrames := 44100, position := 0 }).2 := by
  have hd : getDuration { totalFrames := 44100, position := 0 } < 10 := by
    norm_num [getDuration, SAMPLE_RATE]
  exact ⟨hd, (C10_seek_reports_unclamped_position 10
    { totalFrames := 44100, position := 0 } (by norm_num)).2.2 hd⟩

theorem cmdLoad_queue (tracks : List String) (order : List Nat) (s : DaemonState) :
    (cmdLoad tracks order s).queue = tracks.filter (fun t => isSupported t) := by
  unfold cmdLoad
  dsimp only
  split_ifs <;> rfl

/-- C9: saving the queue as json produces `{name, tracks: queue}`, and loading
that playlist back (no intervening file change) restores exactly the saved
track list — every reachable queue contains only `is_supported` tracks, so
load's support filter keeps them all. -/
theorem C9_save_load_json_roundtrip (name : String) (order : List Nat) {s : DaemonState}
    (hreach : Reachable s) :
    (savePlaylistJson name s).name = name ∧
    (savePlaylistJson name s).tracks = s.queue ∧
    (cmdLoad (savePlaylistJson name s).tracks order s).queue = s.queue := by
  refine ⟨rfl, rfl, ?_⟩
  obtain ⟨-, hall⟩ := reachable_inv hreach
  rw [cmdLoad_queue]
  show s.queue.filter (fun t => isSupported t) = s.queue
  exact List.filter_eq_self.mpr (fun a ha => hall a ha)

/-- Witness for C9: save/load round-trip on the reachable one-track queue. -/
theorem C9_save_load_json_roundtrip_witness :
    (savePlaylistJson "fav" c2StateA).name = "fav" ∧
    (savePlaylistJson "fav" c2StateA).tracks = c2StateA.queue ∧
    (cmdLoad (savePlaylistJson "fav" c2StateA).tracks [] c2StateA).queue =
      c2StateA.queue := by
  have h1 : Step initState c2StateA := by
    have h := Step.add initState "a.mp3" 0 (by decide)
    rwa [show cmdAdd "a.mp3" 0 initState = c2StateA from by decide] at h
  exact C9_save_load_json_roundtrip "fav" [] (Relation.ReflTransGen.single h1)

end Atk

